import Mathlib

/-!
# Verification of the Go-TCP-Chat server against its specification

This file gives a shallow embedding, in Lean 4, of the parts of the
Go-TCP-Chat repository that the specification talks about: the frame
codec (`formatMessage`, the SplitN-based decoder of the client), the
per-client token-bucket rate limiter, the room (channel) operations,
the command handlers (join, leave, name, whisper, channels, ...) and the
server event loop (register, unregister, command, broadcast, shutdown).

Go maps are embedded as association lists (`List (String × α)`); Go map
iteration order is unspecified, so list order carries no meaning.
Pointer mutation of a client or channel object is embedded as updating
every registry entry holding the same identity, which coincides with the
Go behaviour when identities are unique.  `float64` arithmetic of the
token bucket is embedded as exact rational arithmetic, and the Go
float-to-int conversion as truncation toward zero.
-/

namespace GoTcpChat

/-! ## Token bucket (server/client.go, Client.Read) -/

/-- Truncation toward zero, the behaviour of a Go `int(...)` conversion
applied to a non-integral value. -/
def goTruncInt (q : ℚ) : Int := if 0 ≤ q then ⌊q⌋ else ⌈q⌉

/-- The rate-limiter state carried by a `Client`: `bucket`,
`maxBucketSize`, `bucketRate` and `lastRequest` (seconds). -/
structure RState where
  bucket : Int
  maxBucketSize : Int
  bucketRate : ℚ
  lastRequest : ℚ
  deriving DecidableEq, Repr

/-- One iteration of the rate-limiting head of `Client.Read`: refill the
bucket from the elapsed time, cap at `maxBucketSize`, truncate to `int`;
reject the line when the refilled bucket is `≤ 0`, otherwise consume one
token.  Returns the new state and whether the line was accepted. -/
def readLine (st : RState) (now : ℚ) : RState × Bool :=
  let elapsed := now - st.lastRequest
  let tokens := elapsed * st.bucketRate
  let bucket1 := goTruncInt (min ((st.bucket : ℚ) + tokens) ((st.maxBucketSize : ℚ)))
  if bucket1 ≤ 0 then
    ({ st with bucket := bucket1, lastRequest := now }, false)
  else
    ({ st with bucket := bucket1 - 1, lastRequest := now }, true)

/-- The fixed pool of rate-limit phrasings (`rateLimitMessages`); the
reader picks one at random for the notice, which the embedding treats as
a nondeterministic choice from this list. -/
def rateLimitMessages : List String :=
  ["Please slow down your messages.",
   "You\x27re sending messages too quickly.",
   "Take a moment before sending another message.",
   "Easy there! Let\x27s keep the chat friendly.",
   "Whoa! Let\x27s give others a chance to speak.",
   "Let\x27s keep the conversation flowing smoothly.",
   "Patience is a virtue, especially in chat.",
   "Let\x27s take a breather before the next message.",
   "Remember, good things come to those who wait.",
   "Let\x27s keep the chat enjoyable for everyone."]

/-! ## Frame codec (server/server.go formatMessage, client/main.go listener) -/

/-- `formatMessage` from server/server.go: empty sender id or name are
rendered as `"."`, and the three fields are joined with `|`. -/
def formatMessage (senderID senderName content : String) : String :=
  let sid := if senderID = "" then "." else senderID
  let snm := if senderName = "" then "." else senderName
  sid ++ "|" ++ snm ++ "|" ++ content

/-- The scan step of Go `strings.SplitN`: the characters before the
first separator, and the characters after it when there is one. -/
def takeUntilSep (sep : Char) : List Char → List Char × Option (List Char)
  | [] => ([], none)
  | c :: cs =>
    if c = sep then ([], some cs)
    else
      let r := takeUntilSep sep cs
      (c :: r.1, r.2)

/-- Go `strings.SplitN (String.mk cs) (String.mk [sep]) n` on the
character list `cs`: at most `n` parts, the last part keeping the rest
of the input. -/
def splitNChars (sep : Char) : Nat → List Char → List (List Char)
  | 0, _ => []
  | 1, cs => [cs]
  | n + 2, cs =>
    match takeUntilSep sep cs with
    | (pre, none) => [pre]
    | (pre, some rest) => pre :: splitNChars sep (n + 1) rest

/-- The payload decoder of the client listener (client/main.go): split
the payload on `|` into at most three parts, discard it (returning
`none`) unless there are exactly three. -/
def decodePayload (s : String) : Option (String × String × String) :=
  match splitNChars '|' 3 s.data with
  | [a, b, c] => some (⟨a⟩, ⟨b⟩, ⟨c⟩)
  | _ => none

/-! ## Association lists for the Go maps -/

/-- Go map lookup `m[k]` on an association list. -/
def lookupA {α : Type} : List (String × α) → String → Option α
  | [], _ => none
  | p :: rest, k => if p.1 = k then some p.2 else lookupA rest k

/-- Go map deletion `delete(m, k)` on an association list. -/
def removeA {α : Type} : List (String × α) → String → List (String × α)
  | [], _ => []
  | p :: rest, k => if p.1 = k then removeA rest k else p :: removeA rest k

/-- Go map assignment `m[k] = v` on an association list. -/
def insertA {α : Type} (l : List (String × α)) (k : String) (v : α) :
    List (String × α) :=
  removeA l k ++ [(k, v)]

/-! ## Data model: clients, channels, messages, server state -/

/-- A client session as the Server Core sees it: identity, display name,
registration flag, current-room reference (the room name, `none` when in
no room), the outbound queue and whether the connection was closed. -/
structure CClient where
  id : String
  username : String
  registered : Bool
  channel : Option String
  send : List String
  connClosed : Bool
  deriving DecidableEq, Repr

/-- A room (`Channel` in server code): name, optional password, and the
membership set keyed by client identity. -/
structure CChannel where
  name : String
  password : String
  members : List String
  deriving DecidableEq, Repr

/-- An outbound message on the broadcast queue. -/
structure Message where
  senderID : String
  senderName : String
  channel : Option String
  content : String
  isServerMsg : Bool
  deriving DecidableEq, Repr

/-- The state owned by the Server Core: client registry, room registry,
the broadcast queue, and the shutdown flag `stopped`. -/
structure SState where
  clients : List (String × CClient)
  channels : List (String × CChannel)
  broadcastQ : List Message
  stopped : Bool
  deriving DecidableEq, Repr

/-- Capacity of a session outbound queue (`make(chan string, 512)`). -/
def sendQueueCap : Nat := 512

/-- `Client.SendMessage`: non-blocking enqueue, the message is dropped
when the queue is full. -/
def sendMessage (c : CClient) (msg : String) : CClient :=
  if c.send.length < sendQueueCap then { c with send := c.send ++ [msg] } else c

/-- Resolve a client object from the registry by its identity, the
embedding of following a `*Client` pointer. -/
def getById (st : SState) (cid : String) : Option CClient :=
  (st.clients.find? (fun p => p.2.id == cid)).map (fun p => p.2)

/-- Mutation of a client object through its pointer: update every
registry entry holding that identity. -/
def updateClientById (st : SState) (cid : String) (f : CClient → CClient) : SState :=
  { st with clients := st.clients.map (fun p => if p.2.id = cid then (p.1, f p.2) else p) }

/-- `client.SendMessage(msg)` seen from the server state. -/
def sendToClient (st : SState) (cid : String) (msg : String) : SState :=
  updateClientById st cid (fun c => sendMessage c msg)

/-- Mutation of a channel object through its pointer: replace the
registry entry of that name when it is present (a detached object that
the registry no longer holds is simply not seen through the registry). -/
def updateChannel (st : SState) (nm : String) (ch : CChannel) : SState :=
  { st with channels := st.channels.map (fun p => if p.1 = nm then (p.1, ch) else p) }

/-- `delete(s.channels, nm)`. -/
def deleteChannel (st : SState) (nm : String) : SState :=
  { st with channels := removeA st.channels nm }

/-! ## Channel operations (server/channel code) -/

/-- `NewChannel(name, password)`. -/
def NewChannel (name password : String) : CChannel :=
  { name := name, password := password, members := [] }

namespace CChannel

/-- `Channel.AddMember`: fails with `ErrIncorrectPassword` when the
channel has a non-empty password different from the supplied one,
otherwise inserts the client id into the membership map. -/
def AddMember (ch : CChannel) (cid password : String) : Except Unit CChannel :=
  if ch.password ≠ "" ∧ ch.password ≠ password then .error ()
  else .ok { ch with members := if cid ∈ ch.members then ch.members else ch.members ++ [cid] }

/-- `Channel.RemoveMember`: delete the client id from the membership map. -/
def RemoveMember (ch : CChannel) (cid : String) : CChannel :=
  { ch with members := ch.members.filter (fun m => m != cid) }

/-- `Channel.RequiresPassword`: true iff the password is non-empty. -/
def RequiresPassword (ch : CChannel) : Bool := ch.password ≠ ""

end CChannel

/-! ## Broadcast enqueueing (server/server.go broadcastMessage) -/

/-- The body of `Server.broadcastMessage` after the sender fields have
been read: build the `Message` and enqueue it on the broadcast queue. -/
def enqueueBroadcast (st : SState) (senderID senderName : String)
    (chName : Option String) (msg : String) (isServerMsg : Bool) : SState :=
  { st with broadcastQ := st.broadcastQ ++
      [{ senderID := senderID, senderName := senderName, channel := chName,
         content := msg, isServerMsg := isServerMsg }] }

/-- `Server.broadcastMessage(client, channel, msg, isServerMsg)` called
with a known client object. -/
def broadcastMessageC (st : SState) (c : CClient) (chName : Option String)
    (msg : String) (isServerMsg : Bool) : SState :=
  enqueueBroadcast st c.id c.username chName msg isServerMsg

/-- `Server.broadcastMessage` as written: it reads `client.Username` and
`client.ID` unconditionally, so a `nil` client pointer is a runtime
nil-dereference panic, embedded as `none`. -/
def broadcastMessage (st : SState) (client : Option CClient)
    (chName : Option String) (msg : String) (isServerMsg : Bool) : Option SState :=
  match client with
  | none => none
  | some c => some (broadcastMessageC st c chName msg isServerMsg)

/-! ## The missing pieces, modelled from the spec -/

/-- Modelled from the spec: the two-argument `formatMessage(senderName,
content)` used by the current commands.go is not under src (only the
three-argument one is); §6 states a payload is `senderID | senderName |
content` and a message with no meaningful sender id renders it `"."`,
which is exactly `formatMessage ""`. -/
def formatMessage2 (senderName content : String) : String :=
  formatMessage "" senderName content

/-- The typed rejections of an identity change (§4.1 SetIdentity). -/
inductive NameError where
  | emptyName
  | nameTooLong
  | reservedName
  | nameTaken
  | sessionMissing
  deriving DecidableEq, Repr

/-- The user-visible text of an identity-change rejection. -/
def NameError.text : NameError → String
  | .emptyName => "username cannot be empty"
  | .nameTooLong => "username is too long"
  | .reservedName => "username is reserved"
  | .nameTaken => "username is already taken"
  | .sessionMissing => "session not found"

/-- The reserved marker of system-generated temporary names: new
connections are created as `NewClient(conn, s, "Anonymous")`. -/
def reservedNameStart : String := "Anonymous"

/-- An ASCII whitespace character, the cases of Go `strings.TrimSpace`
that can occur in newline-terminated chat input. -/
def isSpaceChar (c : Char) : Bool :=
  c = ' ' ∨ c = '\t' ∨ c = '\n' ∨ c = '\r'

/-- Go `strings.TrimSpace`: drop leading and trailing whitespace. -/
def trimName (s : String) : String :=
  ⟨((s.data.dropWhile isSpaceChar).reverse.dropWhile isSpaceChar).reverse⟩

/-- Whether a proposed name collides with the reserved marker, the Go
`strings.HasPrefix(name, "Anonymous")` check. -/
def startsWithReserved (s : String) : Bool :=
  reservedNameStart.data.isPrefixOf s.data

/-- Modelled from the spec: the body of `Server.changeUsername` is not
under src (only its caller `changeName` in commands.go and the
first-line registration path are).  §4.1 SetIdentity: validate (trimmed
non-empty, at most 32 characters, must not collide with the reserved
marker of system-generated temporary names, must not already belong to
a different live session); on success atomically move the Registry entry
from the old key to the new key, store the new display name and mark the
session registered; on failure return a typed rejection without mutating
state. -/
def changeUsername (reg : List (String × CClient)) (cid oldKey newName : String) :
    List (String × CClient) × Option NameError :=
  if trimName newName = "" then (reg, some .emptyName)
  else if 32 < newName.length then (reg, some .nameTooLong)
  else if startsWithReserved newName then (reg, some .reservedName)
  else
    let doMove : List (String × CClient) × Option NameError :=
      match lookupA reg oldKey with
      | some entry =>
        (insertA (removeA reg oldKey) newName
          { entry with username := newName, registered := true }, none)
      | none => (reg, some .sessionMissing)
    match lookupA reg newName with
    | some other => if other.id = cid then doMove else (reg, some .nameTaken)
    | none => doMove

/-! ## Command handlers (server/commands.go) -/

/-- The leave-current-channel step at the top of `joinChannel`: remove
the issuer from its current room, enqueue the "left" broadcast, delete
the room when it became empty.  Returns the updated state together with
the channel object the join will proceed on (the freshly updated old
object when the issuer rejoins the room it was in, mirroring the pointer
aliasing of the Go code). -/
def joinLeaveCurrent (st : SState) (client : CClient) (channelName : String)
    (channel0 : CChannel) : SState × CChannel :=
  match client.channel with
  | none => (st, channel0)
  | some oldNm =>
    match lookupA st.channels oldNm with
    | none => (st, channel0)
    | some oldCh =>
      let oldCh1 := oldCh.RemoveMember client.id
      let stA := updateChannel st oldNm oldCh1
      let stB := broadcastMessageC stA client (some oldNm)
        (client.username ++ " has left the channel.") true
      let stC := if oldCh1.members.isEmpty then deleteChannel stB oldNm else stB
      (stC, if oldNm = channelName then oldCh1 else channel0)

/-- `joinChannel` (the `/join` handler). -/
def joinChannel (st : SState) (cid : String) (args : List String) : SState :=
  match getById st cid with
  | none => st
  | some client =>
    match args with
    | [] => sendToClient st cid
        (formatMessage2 "Server" "Usage: /join <channel_name> [password]")
    | channelName :: rest =>
      let password := match rest with | [] => "" | p :: _ => p
      if 32 < password.length then
        sendToClient st cid (formatMessage2 "Server"
          "Password is too long. Maximum length is 32 characters.")
      else
        let lookAndMake : CChannel × SState :=
          match lookupA st.channels channelName with
          | some ch => (ch, st)
          | none =>
            let ch := NewChannel channelName password
            (ch, { st with channels := insertA st.channels channelName ch })
        let channel0 := lookAndMake.1
        let st1 := lookAndMake.2
        let left := joinLeaveCurrent st1 client channelName channel0
        let st2 := left.1
        let channel1 := left.2
        if channel1.RequiresPassword ∧ password = "" then
          sendToClient st2 cid (formatMessage2 "Server"
            ("Channel \x27" ++ channelName ++ "\x27 requires a password."))
        else
          match channel1.AddMember cid password with
          | .error _ => sendToClient st2 cid (formatMessage2 "Server"
              ("Incorrect password for channel \x27" ++ channelName ++ "\x27"))
          | .ok channel2 =>
            let st3 := updateChannel st2 channelName channel2
            let st4 := updateClientById st3 cid
              (fun c => { c with channel := some channelName })
            let st5 := sendToClient st4 cid (formatMessage2 "Server"
              ("You have joined channel \x27" ++ channelName ++ "\x27"))
            broadcastMessageC st5 client (some channelName)
              (client.username ++ " has joined the channel.") true

/-- `leaveChannel` (the `/leave` handler). -/
def leaveChannel (st : SState) (cid : String) (_args : List String) : SState :=
  match getById st cid with
  | none => st
  | some client =>
    match client.channel with
    | none => sendToClient st cid (formatMessage2 "Server" "You are not in any channel.")
    | some nm =>
      let removed : SState × Bool :=
        match lookupA st.channels nm with
        | some ch =>
          let ch1 := ch.RemoveMember cid
          (updateChannel st nm ch1, ch1.members.isEmpty)
        | none => (st, true)
      let st1 := removed.1
      let st2 := broadcastMessageC st1 client (some nm)
        (client.username ++ " has left the channel.") true
      let st3 := if removed.2 then deleteChannel st2 nm else st2
      let st4 := updateClientById st3 cid (fun c => { c with channel := none })
      sendToClient st4 cid (formatMessage2 "Server"
        ("You have left channel \x27" ++ nm ++ "\x27"))

/-- `connectedClients` (the `/clients` handler). -/
def connectedClients (st : SState) (cid : String) (_args : List String) : SState :=
  sendToClient st cid (formatMessage2 "Server"
    ("Connected clients (" ++ toString st.clients.length ++ ")"))

/-- `channelMembers` (the `/members` handler). -/
def channelMembers (st : SState) (cid : String) (_args : List String) : SState :=
  match getById st cid with
  | none => st
  | some client =>
    match client.channel with
    | none => sendToClient st cid (formatMessage2 "" "You are not in any channel.")
    | some nm =>
      let names : List String :=
        match lookupA st.channels nm with
        | none => []
        | some ch => ch.members.filterMap (fun mid => (getById st mid).map (fun c => c.username))
      sendToClient st cid (formatMessage2 ""
        ("Members in channel \x27" ++ nm ++ "\x27: \n" ++ String.intercalate ", " names))

/-- The reply lines built by `listChannels`, one per room registry
entry: `name (memberCount)`. -/
def channelLines (st : SState) : List String :=
  st.channels.map (fun p => p.1 ++ " (" ++ toString p.2.members.length ++ ")")

/-- `listChannels` (the `/channels` handler). -/
def listChannels (st : SState) (cid : String) (_args : List String) : SState :=
  if st.channels.isEmpty then
    sendToClient st cid (formatMessage2 "" "No channels available.")
  else
    sendToClient st cid (formatMessage2 ""
      ("Available channels: \n" ++ String.intercalate "\n" (channelLines st)))

/-- `changeName` (the `/name` handler): delegates to `changeUsername`
and relays success or failure. -/
def changeName (st : SState) (cid : String) (args : List String) : SState :=
  match getById st cid with
  | none => st
  | some client =>
    match args with
    | [] => sendToClient st cid (formatMessage2 "Server" "Usage: /name <new_username>")
    | newName :: _ =>
      let oldUsername := client.username
      let r := changeUsername st.clients client.id oldUsername newName
      match r.2 with
      | some e => sendToClient st cid (formatMessage2 "Server"
          ("Failed to change username: " ++ e.text))
      | none =>
        sendToClient { st with clients := r.1 } cid (formatMessage2 "Server"
          ("Your username has been changed to \x27" ++ newName ++ "\x27"))

/-- `whisper` (the `/whisper` handler). -/
def whisper (st : SState) (cid : String) (args : List String) : SState :=
  match getById st cid with
  | none => st
  | some client =>
    match args with
    | targetUsername :: m0 :: ms =>
      let message := String.intercalate " " (m0 :: ms)
      match lookupA st.clients targetUsername with
      | none => sendToClient st cid (formatMessage2 "Server"
          ("User \x27" ++ targetUsername ++ "\x27 not found or not registered."))
      | some targetClient =>
        if client.username = targetUsername then
          sendToClient st cid (formatMessage2 "Server" "You cannot whisper to yourself.")
        else if !targetClient.registered then
          sendToClient st cid (formatMessage2 "Server"
            ("User \x27" ++ targetUsername ++ "\x27 is not available."))
        else
          let st1 := sendToClient st targetClient.id
            (formatMessage2 ("DM from " ++ client.username) message)
          sendToClient st1 cid (formatMessage2 "Server"
            ("Whisper sent to \x27" ++ targetUsername ++ "\x27"))
    | _ => sendToClient st cid (formatMessage2 "Server" "Usage: /whisper <username> <message>")

/-- `help` (the `/help` handler). -/
def help (st : SState) (cid : String) (_args : List String) : SState :=
  sendToClient st cid (formatMessage2 ""
    ("Available commands:\n/join <channel_name> [password] - Join or create a channel\n/leave - Leave the current channel\n/clients - Get the number of connected clients\n/members - List members in your current channel\n/channels - List all available channels\n/name <new_username> - Change your username\n/whisper <username> <message> - Send a private message to a user\n/help - Show this help message\n\nNote: Arguments in <> are required, arguments in [] are optional.\n"))

/-! ## The Server Core event loop (server/server.go, Server.run) -/

/-- Command dispatch (`loadCommands` plus the unknown-command reply of
the `run` loop). -/
def handleCommand (st : SState) (name : String) (args : List String) (cid : String) : SState :=
  if name = "join" then joinChannel st cid args
  else if name = "leave" then leaveChannel st cid args
  else if name = "clients" then connectedClients st cid args
  else if name = "members" then channelMembers st cid args
  else if name = "channels" then listChannels st cid args
  else if name = "name" then changeName st cid args
  else if name = "whisper" then whisper st cid args
  else if name = "help" then help st cid args
  else sendToClient st cid (formatMessage "" "Server"
    "[Server]: Unknown command. Type /help for a list of commands.")

/-- The broadcast case of the `run` loop: a server message overrides the
sender name with `"Server"` and blanks the sender id in the frame; the
audience is the channel membership (all registry clients when no channel
is given), always excluding the client whose identity equals
`msg.SenderID`; each recipient gets the formatted frame via
`SendMessage`. -/
def handleBroadcast (st : SState) (msg : Message) : SState :=
  let clientSender := if msg.isServerMsg then "" else msg.senderID
  let senderName := if msg.isServerMsg then "Server" else msg.senderName
  let frame := formatMessage clientSender senderName msg.content
  match msg.channel with
  | none =>
    { st with clients := st.clients.map (fun p =>
        if msg.senderID ≠ p.2.id then (p.1, sendMessage p.2 frame) else p) }
  | some nm =>
    match lookupA st.channels nm with
    | none => st
    | some ch =>
      { st with clients := st.clients.map (fun p =>
          if p.2.id ∈ ch.members ∧ msg.senderID ≠ p.2.id then (p.1, sendMessage p.2 frame) else p) }

/-- The unregister case of the `run` loop: remove the client from its
room, enqueue the "left" broadcast, delete the room when it became
empty, then delete the client from the registry.  The client object
itself survives (its goroutines still hold it); the second component is
its final state. -/
def handleUnregister (st : SState) (client : CClient) : SState × CClient :=
  let st1 :=
    match client.channel with
    | none => st
    | some nm =>
      match lookupA st.channels nm with
      | none =>
        broadcastMessageC st client (some nm)
          (client.username ++ " has left the channel.") true
      | some ch =>
        let ch1 := ch.RemoveMember client.id
        let stA := updateChannel st nm ch1
        let stB := broadcastMessageC stA client (some nm)
          (client.username ++ " has left the channel.") true
        if ch1.members.isEmpty then deleteChannel stB nm else stB
  ({ st1 with clients := removeA st1.clients client.id }, client)

/-- The five event sources the `run` loop selects over. -/
inductive Event where
  | registerE (c : CClient)
  | unregisterE (c : CClient)
  | commandE (name : String) (args : List String) (cid : String)
  | broadcastE (m : Message)
  | shutdownE
  deriving DecidableEq, Repr

/-- One iteration of the `run` loop: process one event; the returned
flag is `true` exactly when the loop returns.  The shutdown case closes
every live connection only when `stopped` is not yet set, then returns
iff the client registry is empty. -/
def serverStep (st : SState) (e : Event) : SState × Bool :=
  match e with
  | .registerE c => ({ st with clients := insertA st.clients c.id c }, false)
  | .unregisterE c => ((handleUnregister st c).1, false)
  | .commandE name args cid => (handleCommand st name args cid, false)
  | .broadcastE m => (handleBroadcast st m, false)
  | .shutdownE =>
    let st1 :=
      if st.stopped then st
      else { st with
        clients := st.clients.map (fun p => (p.1, { p.2 with connClosed := true })),
        stopped := true }
    (st1, st1.clients.isEmpty)

/-! ## Concrete example sessions and states -/

/-- A registered session `alice` currently in room `A`. -/
def cAliceA : CClient :=
  { id := "a", username := "alice", registered := true, channel := some "A",
    send := [], connClosed := false }

/-- A registered session `bob` currently in room `A`. -/
def cBobA : CClient :=
  { id := "b", username := "bob", registered := true, channel := some "A",
    send := [], connClosed := false }

/-- A registered session `alice` in no room. -/
def cAliceU : CClient :=
  { id := "a", username := "alice", registered := true, channel := none,
    send := [], connClosed := false }

/-- A registered session `bob` in no room. -/
def cBobU : CClient :=
  { id := "b", username := "bob", registered := true, channel := none,
    send := [], connClosed := false }

/-- A state with `alice` and `bob` in room `A` (no password) and an
empty password-protected room `B`. -/
def stJoin : SState :=
  { clients := [("a", cAliceA), ("b", cBobA)],
    channels := [("A", { name := "A", password := "", members := ["a", "b"] }),
                 ("B", { name := "B", password := "pw", members := [] })],
    broadcastQ := [], stopped := false }

/-- A state with `alice` as the sole member of room `A`. -/
def stSolo : SState :=
  { clients := [("a", cAliceA)],
    channels := [("A", { name := "A", password := "", members := ["a"] })],
    broadcastQ := [], stopped := false }

/-- A username-keyed registry state with `alice` and `bob` registered
and in no room. -/
def stUsers : SState :=
  { clients := [("alice", cAliceU), ("bob", cBobU)],
    channels := [], broadcastQ := [], stopped := false }

/-- The broadcast message `alice` sends to room `A` with content `hi`. -/
def msgHi : Message :=
  { senderID := "a", senderName := "alice", channel := some "A",
    content := "hi", isServerMsg := false }

/-! ## Association-list lemmas -/

theorem lookupA_append {α : Type} (l1 l2 : List (String × α)) (k : String) :
    lookupA (l1 ++ l2) k = ((lookupA l1 k).orElse (fun _ => lookupA l2 k)) := by
  induction l1 with
  | nil => simp [lookupA]
  | cons p rest ih =>
    by_cases h : p.1 = k <;> simp [lookupA, h, ih]

theorem lookupA_removeA_self {α : Type} (l : List (String × α)) (k : String) :
    lookupA (removeA l k) k = none := by
  induction l with
  | nil => simp [removeA, lookupA]
  | cons p rest ih =>
    by_cases h : p.1 = k <;> simp [removeA, lookupA, h, ih]

theorem lookupA_removeA_ne {α : Type} (l : List (String × α)) (k k' : String)
    (h : k' ≠ k) : lookupA (removeA l k) k' = lookupA l k' := by
  induction l with
  | nil => rfl
  | cons p rest ih =>
    rw [removeA]
    by_cases hp : p.1 = k
    · rw [if_pos hp, ih, lookupA,
        if_neg (by rw [hp]; exact fun hh => h hh.symm)]
    · rw [if_neg hp, lookupA, lookupA]
      by_cases hp' : p.1 = k'
      · rw [if_pos hp', if_pos hp']
      · rw [if_neg hp', if_neg hp', ih]

theorem lookupA_insertA_self {α : Type} (l : List (String × α)) (k : String) (v : α) :
    lookupA (insertA l k v) k = some v := by
  simp [insertA, lookupA_append, lookupA_removeA_self, lookupA]

theorem lookupA_insertA_ne {α : Type} (l : List (String × α)) (k k' : String) (v : α)
    (h : k' ≠ k) : lookupA (insertA l k v) k' = lookupA l k' := by
  rw [insertA, lookupA_append, lookupA_removeA_ne l k k' h]
  cases hl : lookupA l k' with
  | none => simp [lookupA, Ne.symm h]
  | some w => simp

theorem mem_removeA {α : Type} (l : List (String × α)) (k : String) (p : String × α) :
    p ∈ removeA l k ↔ p ∈ l ∧ p.1 ≠ k := by
  induction l with
  | nil => simp [removeA]
  | cons q rest ih =>
    rw [removeA]
    by_cases h : q.1 = k
    · rw [if_pos h, ih]
      constructor
      · rintro ⟨hm, hne⟩
        exact ⟨List.mem_cons_of_mem _ hm, hne⟩
      · rintro ⟨hm, hne⟩
        rcases List.mem_cons.mp hm with hq | hm'
        · exact absurd (by rw [hq]; exact h) hne
        · exact ⟨hm', hne⟩
    · rw [if_neg h]
      constructor
      · intro hm
        rcases List.mem_cons.mp hm with hq | hm'
        · exact ⟨by rw [hq]; exact List.mem_cons_self q rest, by rw [hq]; exact h⟩
        · exact ⟨List.mem_cons_of_mem _ (ih.mp hm').1, (ih.mp hm').2⟩
      · rintro ⟨hm, hne⟩
        rcases List.mem_cons.mp hm with hq | hm'
        · rw [hq]
          exact List.mem_cons_self q (removeA rest k)
        · exact List.mem_cons_of_mem _ (ih.mpr ⟨hm', hne⟩)

theorem mem_insertA {α : Type} (l : List (String × α)) (k : String) (v : α) (p : String × α) :
    p ∈ insertA l k v ↔ (p ∈ l ∧ p.1 ≠ k) ∨ p = (k, v) := by
  simp [insertA, mem_removeA]

theorem lookupA_mem {α : Type} (l : List (String × α)) (k : String) (v : α)
    (h : lookupA l k = some v) : (k, v) ∈ l := by
  induction l with
  | nil => exact absurd h (by simp [lookupA])
  | cons p rest ih =>
    rw [lookupA] at h
    by_cases hp : p.1 = k
    · rw [if_pos hp] at h
      injection h with hv
      have hpk : p = (k, v) := by
        cases p with
        | mk a b =>
          simp only at hp hv
          rw [hp, hv]
      rw [← hpk]
      exact List.mem_cons_self p rest
    · rw [if_neg hp] at h
      exact List.mem_cons_of_mem _ (ih h)

theorem lookupA_eq_none {α : Type} (l : List (String × α)) (k : String) :
    lookupA l k = none ↔ ∀ p ∈ l, p.1 ≠ k := by
  induction l with
  | nil => simp [lookupA]
  | cons p rest ih =>
    by_cases hp : p.1 = k <;> simp [lookupA, hp, ih]

/-! ## State-component lemmas -/

theorem sendToClient_channels (st : SState) (cid m : String) :
    (sendToClient st cid m).channels = st.channels := rfl

theorem sendToClient_broadcastQ (st : SState) (cid m : String) :
    (sendToClient st cid m).broadcastQ = st.broadcastQ := rfl

theorem updateClientById_channels (st : SState) (cid : String) (f : CClient → CClient) :
    (updateClientById st cid f).channels = st.channels := rfl

theorem updateClientById_broadcastQ (st : SState) (cid : String) (f : CClient → CClient) :
    (updateClientById st cid f).broadcastQ = st.broadcastQ := rfl

theorem updateChannel_clients (st : SState) (nm : String) (ch : CChannel) :
    (updateChannel st nm ch).clients = st.clients := rfl

theorem updateChannel_broadcastQ (st : SState) (nm : String) (ch : CChannel) :
    (updateChannel st nm ch).broadcastQ = st.broadcastQ := rfl

theorem deleteChannel_clients (st : SState) (nm : String) :
    (deleteChannel st nm).clients = st.clients := rfl

theorem deleteChannel_broadcastQ (st : SState) (nm : String) :
    (deleteChannel st nm).broadcastQ = st.broadcastQ := rfl

theorem broadcastMessageC_clients (st : SState) (c : CClient) (nm : Option String)
    (m : String) (b : Bool) : (broadcastMessageC st c nm m b).clients = st.clients := rfl

theorem broadcastMessageC_channels (st : SState) (c : CClient) (nm : Option String)
    (m : String) (b : Bool) : (broadcastMessageC st c nm m b).channels = st.channels := rfl

theorem broadcastMessageC_broadcastQ (st : SState) (c : CClient) (nm : Option String)
    (m : String) (b : Bool) :
    (broadcastMessageC st c nm m b).broadcastQ = st.broadcastQ ++
      [{ senderID := c.id, senderName := c.username, channel := nm,
         content := m, isServerMsg := b }] := rfl

/-! ## getById and updateClientById lemmas -/

theorem getById_list (l : List (String × CClient)) (cid : String)
    (f : CClient → CClient) (hf : ∀ c, (f c).id = c.id) :
    ((l.map (fun p => if p.2.id = cid then (p.1, f p.2) else p)).find?
        (fun p => p.2.id == cid)).map (fun p => p.2)
      = ((l.find? (fun p => p.2.id == cid)).map (fun p => p.2)).map f := by
  induction l with
  | nil => rfl
  | cons p rest ih =>
    by_cases hp : p.2.id = cid
    · have hb : (p.2.id == cid) = true := beq_iff_eq.mpr hp
      have hb' : ((f p.2).id == cid) = true := beq_iff_eq.mpr (by rw [hf, hp])
      have e1 : List.find? (fun q => q.2.id == cid)
          ((p.1, f p.2) :: rest.map (fun q => if q.2.id = cid then (q.1, f q.2) else q))
          = some (p.1, f p.2) :=
        List.find?_cons_of_pos _ (by simpa using hb')
      have e2 : List.find? (fun q => q.2.id == cid) (p :: rest) = some p :=
        List.find?_cons_of_pos _ hb
      rw [List.map_cons, if_pos hp, e1, e2]
      simp
    · have hb : (p.2.id == cid) = false := beq_eq_false_iff_ne.mpr hp
      have e1 : List.find? (fun q => q.2.id == cid)
          (p :: rest.map (fun q => if q.2.id = cid then (q.1, f q.2) else q))
          = List.find? (fun q => q.2.id == cid)
              (rest.map (fun q => if q.2.id = cid then (q.1, f q.2) else q)) :=
        List.find?_cons_of_neg _ (by simp [hb])
      have e2 : List.find? (fun q => q.2.id == cid) (p :: rest)
          = List.find? (fun q => q.2.id == cid) rest :=
        List.find?_cons_of_neg _ (by simp [hb])
      rw [List.map_cons, if_neg hp, e1, e2]
      exact ih

theorem getById_updateClientById (st : SState) (cid : String)
    (f : CClient → CClient) (hf : ∀ c, (f c).id = c.id) :
    getById (updateClientById st cid f) cid = (getById st cid).map f := by
  have := getById_list st.clients cid f hf
  simpa [getById, updateClientById] using this

theorem getById_id (st : SState) (cid : String) (c : CClient)
    (h : getById st cid = some c) : c.id = cid := by
  rw [getById] at h
  cases hf : st.clients.find? (fun p => p.2.id == cid) with
  | none => rw [hf] at h; exact absurd h (by simp)
  | some p =>
    rw [hf] at h
    have hc : p.2 = c := by simpa using h
    have := List.find?_some hf
    rw [hc] at this
    exact beq_iff_eq.mp this

theorem mem_clients_updateClientById (st : SState) (cid : String)
    (f : CClient → CClient) (k : String) (c : CClient)
    (h : (k, c) ∈ st.clients) :
    (k, if c.id = cid then f c else c) ∈ (updateClientById st cid f).clients := by
  have hm := List.mem_map_of_mem (fun p => if p.2.id = cid then (p.1, f p.2) else p) h
  by_cases hc : c.id = cid <;> simpa [updateClientById, hc] using hm

theorem lookupA_update_self {α : Type} (l : List (String × α)) (nm : String) (v x : α)
    (h : lookupA l nm = some x) :
    lookupA (l.map (fun p => if p.1 = nm then (p.1, v) else p)) nm = some v := by
  induction l with
  | nil => exact absurd h (by simp [lookupA])
  | cons p rest ih =>
    rw [lookupA] at h
    by_cases hp : p.1 = nm
    · simp [lookupA, hp]
    · rw [if_neg hp] at h
      simp only [List.map_cons, if_neg hp, lookupA]
      exact ih h

theorem lookupA_update_ne {α : Type} (l : List (String × α)) (nm nm' : String) (v : α)
    (h : nm' ≠ nm) :
    lookupA (l.map (fun p => if p.1 = nm then (p.1, v) else p)) nm' = lookupA l nm' := by
  induction l with
  | nil => rfl
  | cons p rest ih =>
    by_cases hp : p.1 = nm
    · have hp' : ¬ p.1 = nm' := by rw [hp]; exact fun hh => h hh.symm
      simp only [List.map_cons, if_pos hp, lookupA]
      rw [if_neg (by rw [hp]; exact fun hh => h hh.symm), if_neg hp', ih]
    · simp only [List.map_cons, if_neg hp, lookupA]
      by_cases hp' : p.1 = nm'
      · rw [if_pos hp', if_pos hp']
      · rw [if_neg hp', if_neg hp', ih]

/-! ## joinLeaveCurrent lemmas -/

theorem joinLeaveCurrent_clients (st : SState) (client : CClient) (nm : String)
    (ch0 : CChannel) : (joinLeaveCurrent st client nm ch0).1.clients = st.clients := by
  cases hc : client.channel with
  | none => simp [joinLeaveCurrent, hc]
  | some oldNm =>
    cases hold : lookupA st.channels oldNm with
    | none => simp [joinLeaveCurrent, hc, hold]
    | some oldCh =>
      by_cases h : (oldCh.RemoveMember client.id).members.isEmpty <;>
        simp [joinLeaveCurrent, hc, hold, h, deleteChannel, broadcastMessageC,
          enqueueBroadcast, updateChannel]

theorem joinLeaveCurrent_broadcastQ (st : SState) (client : CClient) (nm : String)
    (ch0 : CChannel) :
    (joinLeaveCurrent st client nm ch0).1.broadcastQ = st.broadcastQ ∨
    ∃ oldNm, (joinLeaveCurrent st client nm ch0).1.broadcastQ = st.broadcastQ ++
      [{ senderID := client.id, senderName := client.username, channel := some oldNm,
         content := client.username ++ " has left the channel.", isServerMsg := true }] := by
  cases hc : client.channel with
  | none => exact Or.inl (by simp [joinLeaveCurrent, hc])
  | some oldNm =>
    cases hold : lookupA st.channels oldNm with
    | none => exact Or.inl (by simp [joinLeaveCurrent, hc, hold])
    | some oldCh =>
      refine Or.inr ⟨oldNm, ?_⟩
      by_cases h : (oldCh.RemoveMember client.id).members.isEmpty <;>
        simp [joinLeaveCurrent, hc, hold, h, deleteChannel, broadcastMessageC,
          enqueueBroadcast, updateChannel]

/-- Removing a member never adds one: every member of the target-room
entry after the leave step was a member before. -/
theorem joinLeaveCurrent_no_add (st : SState) (client : CClient) (nmB : String)
    (chB : CChannel) (hch : lookupA st.channels nmB = some chB) :
    ∀ ch', lookupA (joinLeaveCurrent st client nmB chB).1.channels nmB = some ch' →
      ∀ x, x ∈ ch'.members → x ∈ chB.members := by
  cases hc : client.channel with
  | none =>
    intro ch' h'
    simp only [joinLeaveCurrent, hc] at h'
    rw [hch] at h'
    injection h' with h''
    rw [← h'']
    exact fun _ hx => hx
  | some oldNm =>
    cases hold : lookupA st.channels oldNm with
    | none =>
      intro ch' h'
      simp only [joinLeaveCurrent, hc, hold] at h'
      rw [hch] at h'
      injection h' with h''
      rw [← h'']
      exact fun _ hx => hx
    | some oldCh =>
      by_cases hemp : (oldCh.RemoveMember client.id).members.isEmpty
      · intro ch' h'
        simp only [joinLeaveCurrent, hc, hold, hemp, if_true, deleteChannel,
          broadcastMessageC, enqueueBroadcast, updateChannel] at h'
        by_cases heq : nmB = oldNm
        · rw [heq, lookupA_removeA_self] at h'
          exact absurd h' (by simp)
        · rw [lookupA_removeA_ne _ _ _ heq, lookupA_update_ne _ _ _ _ heq, hch] at h'
          injection h' with h''
          rw [← h'']
          exact fun _ hx => hx
      · intro ch' h'
        simp only [joinLeaveCurrent, hc, hold, hemp, if_false, Bool.false_eq_true,
          broadcastMessageC, enqueueBroadcast, updateChannel] at h'
        by_cases heq : oldNm = nmB
        · rw [← heq, lookupA_update_self _ _ _ _ hold] at h'
          injection h' with h''
          rw [← h'']
          intro x hx
          have hx' : x ∈ oldCh.members ∧ x ≠ client.id := by
            simpa [CChannel.RemoveMember] using hx
          rw [heq] at hold
          rw [hold] at hch
          injection hch with hbc
          rw [← hbc]
          exact hx'.1
        · rw [lookupA_update_ne _ _ _ _ (fun hh => heq hh.symm), hch] at h'
          injection h' with h''
          rw [← h'']
          exact fun _ hx => hx

/-- After the leave step, the session is no longer a member of the room
it was in (when that room still resolves). -/
theorem joinLeaveCurrent_prev_room (st : SState) (client : CClient) (nmA nmB : String)
    (chA ch0 : CChannel) (hcur : client.channel = some nmA)
    (hA : lookupA st.channels nmA = some chA) :
    ∀ chA', lookupA (joinLeaveCurrent st client nmB ch0).1.channels nmA = some chA' →
      client.id ∉ chA'.members := by
  by_cases hemp : (chA.RemoveMember client.id).members.isEmpty
  · intro chA' h'
    simp only [joinLeaveCurrent, hcur, hA, hemp, if_true, deleteChannel,
      broadcastMessageC, enqueueBroadcast, updateChannel] at h'
    rw [lookupA_removeA_self] at h'
    exact absurd h' (by simp)
  · intro chA' h'
    simp only [joinLeaveCurrent, hcur, hA, hemp, if_false, Bool.false_eq_true,
      broadcastMessageC, enqueueBroadcast, updateChannel] at h'
    rw [lookupA_update_self _ _ _ _ hA] at h'
    injection h' with h''
    rw [← h'']
    intro hx
    simpa [CChannel.RemoveMember] using hx

theorem sendMessage_id (c : CClient) (m : String) : (sendMessage c m).id = c.id := by
  rw [sendMessage]
  split <;> rfl

theorem sendMessage_channel (c : CClient) (m : String) :
    (sendMessage c m).channel = c.channel := by
  rw [sendMessage]
  split <;> rfl

theorem getById_sendToClient (st : SState) (cid m : String) :
    getById (sendToClient st cid m) cid = (getById st cid).map (fun c => sendMessage c m) :=
  getById_updateClientById st cid _ (fun c => sendMessage_id c m)

theorem getById_eq_clients (st1 st2 : SState) (cid : String)
    (h : st1.clients = st2.clients) : getById st1 cid = getById st2 cid := by
  rw [getById, getById, h]

theorem joinLeaveCurrent_pw (st : SState) (client : CClient) (nmB : String)
    (chB : CChannel) (hch : lookupA st.channels nmB = some chB) :
    (joinLeaveCurrent st client nmB chB).2.password = chB.password := by
  cases hc : client.channel with
  | none => simp [joinLeaveCurrent, hc]
  | some oldNm =>
    cases hold : lookupA st.channels oldNm with
    | none => simp [joinLeaveCurrent, hc, hold]
    | some oldCh =>
      by_cases heq : oldNm = nmB
      · subst heq
        rw [hold] at hch
        injection hch with hbc
        subst hbc
        simp [joinLeaveCurrent, hc, hold, CChannel.RemoveMember]
      · simp [joinLeaveCurrent, hc, hold, heq, CChannel.RemoveMember]

/-! ## Claim C1: the token bucket -/

/-- C1 counterexample: with capacity `5`, refill rate `1/2` token per
second, an empty bucket and a line arriving `T = 1` second after the
previous one, the claim formula `min(C, previous + R×T)` gives `1/2`
token, which is `> 0`, so the claim accepts the line; the code stores
the Go `int` truncation `0` and rejects the line. -/
theorem C1_counterexample :
    (readLine { bucket := 0, maxBucketSize := 5, bucketRate := 1/2, lastRequest := 0 } 1).2 = false ∧
    ((readLine { bucket := 0, maxBucketSize := 5, bucketRate := 1/2, lastRequest := 0 } 1).1.bucket : ℚ) ≠
      min (((0 : Int) : ℚ) + (1/2) * 1) (((5 : Int) : ℚ)) ∧
    (0 : ℚ) < min (((0 : Int) : ℚ) + (1/2) * 1) (((5 : Int) : ℚ)) := by
  have h1 : (readLine { bucket := 0, maxBucketSize := 5, bucketRate := 1/2, lastRequest := 0 } 1)
      = ({ bucket := 0, maxBucketSize := 5, bucketRate := 1/2, lastRequest := 1 }, false) := by
    rw [readLine]
    norm_num [goTruncInt, min_def]
  rw [h1]
  norm_num [min_def]

/-- C1 (amended): when a line arrives `T` seconds after the previous
one, the available tokens become the truncation toward zero (the Go
`int` conversion) of `min(C, previous + R×T)`; the line is accepted
exactly when that truncated count is `> 0`, in which case exactly one
token is consumed, and the arrival time is recorded either way. -/
theorem C1_token_bucket (st : RState) (T : ℚ) :
    ((readLine st (st.lastRequest + T)).2 = true ↔
      0 < goTruncInt (min ((st.bucket : ℚ) + st.bucketRate * T) ((st.maxBucketSize : ℚ)))) ∧
    (readLine st (st.lastRequest + T)).1.bucket =
      (if 0 < goTruncInt (min ((st.bucket : ℚ) + st.bucketRate * T) ((st.maxBucketSize : ℚ)))
       then goTruncInt (min ((st.bucket : ℚ) + st.bucketRate * T) ((st.maxBucketSize : ℚ))) - 1
       else goTruncInt (min ((st.bucket : ℚ) + st.bucketRate * T) ((st.maxBucketSize : ℚ)))) ∧
    (readLine st (st.lastRequest + T)).1.lastRequest = st.lastRequest + T := by
  by_cases h : goTruncInt (min ((st.bucket : ℚ) + st.bucketRate * T) ((st.maxBucketSize : ℚ))) ≤ 0
  · have h2 : ¬ (0 : Int) < goTruncInt (min ((st.bucket : ℚ) + st.bucketRate * T)
        ((st.maxBucketSize : ℚ))) := by omega
    refine ⟨?_, ?_, ?_⟩ <;>
      simp [readLine, add_sub_cancel_left, mul_comm T st.bucketRate, if_pos h, h2]
  · have h2 : (0 : Int) < goTruncInt (min ((st.bucket : ℚ) + st.bucketRate * T)
        ((st.maxBucketSize : ℚ))) := by omega
    refine ⟨?_, ?_, ?_⟩ <;>
      simp [readLine, add_sub_cancel_left, mul_comm T st.bucketRate, if_neg h, h2]

/-! ## Claim C2: frame round trip and malformed payloads -/

theorem takeUntilSep_no_sep (sep : Char) (xs : List Char) (h : sep ∉ xs) :
    takeUntilSep sep xs = (xs, none) := by
  induction xs with
  | nil => rfl
  | cons c cs ih =>
    rw [takeUntilSep]
    rw [if_neg (fun hh => h (by rw [hh]; exact List.mem_cons_self _ _)),
      ih (fun hm => h (List.mem_cons_of_mem _ hm))]

theorem takeUntilSep_append (sep : Char) (xs ys : List Char) (h : sep ∉ xs) :
    takeUntilSep sep (xs ++ sep :: ys) = (xs, some ys) := by
  induction xs with
  | nil => simp [takeUntilSep]
  | cons c cs ih =>
    rw [List.cons_append, takeUntilSep]
    rw [if_neg (fun hh => h (by rw [hh]; exact List.mem_cons_self _ _)),
      ih (fun hm => h (List.mem_cons_of_mem _ hm))]

theorem splitNChars_two_seps (a b c : List Char) (ha : '|' ∉ a) (hb : '|' ∉ b) :
    splitNChars '|' 3 (a ++ '|' :: (b ++ '|' :: c)) = [a, b, c] := by
  have h1 := takeUntilSep_append '|' a (b ++ '|' :: c) ha
  have h2 := takeUntilSep_append '|' b c hb
  simp [splitNChars, h1, h2]

theorem formatMessage_data (s n c : String) (hs : s ≠ "") (hn : n ≠ "") :
    (formatMessage s n c).data = s.data ++ '|' :: (n.data ++ '|' :: c.data) := by
  rw [formatMessage]
  simp only [if_neg hs, if_neg hn]
  show (s.data ++ "|".data ++ n.data ++ "|".data ++ c.data) = _
  simp

/-- C2 counterexample: the senderID `""` contains no `|`, yet the
encoder renders it as `"."`, so decoding does not return the original
field values: the claim fails on empty sender fields. -/
theorem C2_counterexample :
    decodePayload (formatMessage "" "Alice" "hello") = some (".", "Alice", "hello") ∧
    (".", "Alice", "hello") ≠ (("" : String), "Alice", "hello") ∧
    '|' ∉ ("" : String).data := by
  refine ⟨by decide, by decide, by decide⟩

/-- C2 (amended): encoding a message whose senderID and senderName are
non-empty and whose three fields contain no `|` and then decoding the
payload yields exactly the three original field values; every payload
that does not split into exactly three parts is discarded (the decoder
returns `none`, it does not crash). -/
theorem C2_roundtrip_malformed :
    (∀ s n c : String, s ≠ "" → n ≠ "" →
        '|' ∉ s.data → '|' ∉ n.data → '|' ∉ c.data →
        decodePayload (formatMessage s n c) = some (s, n, c)) ∧
    (∀ p : String, (splitNChars '|' 3 p.data).length ≠ 3 → decodePayload p = none) := by
  constructor
  · intro s n c hs hn hps hpn _hpc
    rw [decodePayload, formatMessage_data s n c hs hn,
      splitNChars_two_seps s.data n.data c.data hps hpn]
  · intro p hl
    rcases hsp : splitNChars '|' 3 p.data with _ | ⟨a, _ | ⟨b, _ | ⟨c, _ | ⟨d, e⟩⟩⟩⟩ <;>
      rw [hsp] at hl <;> rw [decodePayload, hsp] <;> simp_all

/-- C2 witness: the round trip at `"u1"`/`"Alice"`/`"hello"` and the
rejection of the two-part payload `"a|b"`. -/
theorem C2_roundtrip_malformed_witness :
    decodePayload (formatMessage "u1" "Alice" "hello") = some ("u1", "Alice", "hello") ∧
    decodePayload "a|b" = none := by
  refine ⟨C2_roundtrip_malformed.1 "u1" "Alice" "hello" (by decide) (by decide)
    (by decide) (by decide) (by decide), C2_roundtrip_malformed.2 "a|b" (by decide)⟩

/-! ## Claim C3: display-name change -/

/-- C3: a display-name change (the `/name` handler `changeName`
delegates to this `changeUsername` path, as does first-line
registration) succeeds iff the proposed name is non-empty after
trimming, at most 32 characters, does not start with the reserved
marker of system-generated temporary names, and is not currently held
by a different live session; on success the registry holds the session
only under the new name (the updated, registered client record) and a
lookup by the old name no longer resolves; on failure the registry is
unchanged. -/
theorem C3_changeName_validation (reg : List (String × CClient)) (client : CClient)
    (oldKey newName : String)
    (hold : lookupA reg oldKey = some client)
    (honly : ∀ k v, (k, v) ∈ reg → v.id = client.id → k = oldKey) :
    (((changeUsername reg client.id oldKey newName).2 = none) ↔
      (trimName newName ≠ "" ∧ newName.length ≤ 32 ∧
        startsWithReserved newName = false ∧
        (∀ other, lookupA reg newName = some other → other.id = client.id))) ∧
    ((changeUsername reg client.id oldKey newName).2 = none →
      lookupA (changeUsername reg client.id oldKey newName).1 newName =
        some { client with username := newName, registered := true } ∧
      (oldKey ≠ newName → lookupA (changeUsername reg client.id oldKey newName).1 oldKey = none) ∧
      (∀ k v, (k, v) ∈ (changeUsername reg client.id oldKey newName).1 →
        v.id = client.id → k = newName)) ∧
    ((changeUsername reg client.id oldKey newName).2 ≠ none →
      (changeUsername reg client.id oldKey newName).1 = reg) := by
  by_cases h1 : trimName newName = ""
  · have hr : changeUsername reg client.id oldKey newName = (reg, some .emptyName) := by
      simp [changeUsername, h1]
    rw [hr]
    simp [h1]
  by_cases h2 : 32 < newName.length
  · have hr : changeUsername reg client.id oldKey newName = (reg, some .nameTooLong) := by
      simp [changeUsername, h1, h2]
    rw [hr]
    simp
    omega
  cases h3 : startsWithReserved newName with
  | true =>
    have hr : changeUsername reg client.id oldKey newName = (reg, some .reservedName) := by
      simp [changeUsername, h1, h2, h3]
    rw [hr]
    simp [h3]
  | false =>
    have hmove1 : lookupA (insertA (removeA reg oldKey) newName
        { client with username := newName, registered := true }) newName =
        some { client with username := newName, registered := true } :=
      lookupA_insertA_self _ _ _
    have hmove2 : oldKey ≠ newName →
        lookupA (insertA (removeA reg oldKey) newName
          { client with username := newName, registered := true }) oldKey = none := by
      intro hne
      rw [lookupA_insertA_ne _ _ _ _ hne, lookupA_removeA_self]
    have hmove3 : ∀ k v, (k, v) ∈ insertA (removeA reg oldKey) newName
        { client with username := newName, registered := true } →
        v.id = client.id → k = newName := by
      intro k v hm hid
      rcases (mem_insertA _ _ _ _).mp hm with ⟨hmem, _hne⟩ | he
      · rcases (mem_removeA _ _ _).mp hmem with ⟨hmem', hne'⟩
        exact absurd (honly k v hmem' hid) hne'
      · simpa using congrArg Prod.fst he
    cases hlk : lookupA reg newName with
    | some other =>
      by_cases h4 : other.id = client.id
      · have hr : changeUsername reg client.id oldKey newName =
            (insertA (removeA reg oldKey) newName
              { client with username := newName, registered := true }, none) := by
          simp [changeUsername, h1, h2, h3, hlk, h4, hold]
        rw [hr]
        refine ⟨?_, ?_, ?_⟩
        · simp [h1, hlk]
          exact ⟨by omega, h4⟩
        · intro _
          exact ⟨hmove1, hmove2, hmove3⟩
        · intro hs
          exact absurd rfl hs
      · have hr : changeUsername reg client.id oldKey newName = (reg, some .nameTaken) := by
          simp [changeUsername, h1, h2, h3, hlk, h4]
        rw [hr]
        refine ⟨?_, ?_, ?_⟩
        · simp [hlk, h4]
        · intro hs
          exact absurd hs (by simp)
        · intro _
          rfl
    | none =>
      have hr : changeUsername reg client.id oldKey newName =
          (insertA (removeA reg oldKey) newName
            { client with username := newName, registered := true }, none) := by
        simp [changeUsername, h1, h2, h3, hlk, hold]
      rw [hr]
      refine ⟨?_, ?_, ?_⟩
      · simp [h1, hlk]
        omega
      · intro _
        exact ⟨hmove1, hmove2, hmove3⟩
      · intro hs
        exact absurd rfl hs

/-- C3 witness: `alice` (key `"alice"`, id `"a"`) renames to `"carol"`:
the change succeeds, the registry resolves `"carol"` to the updated
session and no longer resolves `"alice"`. -/
theorem C3_changeName_validation_witness :
    (changeUsername [("alice", cAliceU)] cAliceU.id "alice" "carol").2 = none ∧
    lookupA (changeUsername [("alice", cAliceU)] cAliceU.id "alice" "carol").1 "carol" =
      some { cAliceU with username := "carol", registered := true } ∧
    lookupA (changeUsername [("alice", cAliceU)] cAliceU.id "alice" "carol").1 "alice" = none := by
  have honly : ∀ k v, (k, v) ∈ [("alice", cAliceU)] → v.id = cAliceU.id → k = "alice" := by
    intro k v hm _
    have := List.mem_singleton.mp hm
    simpa using congrArg Prod.fst this
  have h := C3_changeName_validation [("alice", cAliceU)] cAliceU "alice" "carol"
    (by decide) honly
  have hs : (changeUsername [("alice", cAliceU)] cAliceU.id "alice" "carol").2 = none := by
    apply h.1.mpr
    refine ⟨by decide, by decide, by decide, ?_⟩
    intro other ho
    rw [show lookupA [("alice", cAliceU)] "carol" = (none : Option CClient) from by decide] at ho
    exact Option.noConfusion ho
  have hc := h.2.1 hs
  exact ⟨hs, hc.1, hc.2.1 (by decide)⟩

/-! ## Claim C9: broadcastMessage with a nil sender -/

/-- C9: `Server.Start` passes a `nil` client (and `nil` channel) to
`broadcastMessage` for the graceful-shutdown notice, but
`broadcastMessage` reads `client.Username` and `client.ID`
unconditionally, so that call dereferences a nil pointer and panics
(embedded: the nil-sender call yields `none` instead of an enqueued
message). -/
theorem C9_nil_sender_panics :
    broadcastMessage { clients := [], channels := [], broadcastQ := [], stopped := false }
      none none "Server is shutting down. Disconnecting..." true = none := rfl

/-! ## Claim C4: joining a password-protected room with a wrong or
missing password -/

/-- C4: a `/join` of an existing room with a non-empty password, where
the supplied password (taken from the second argument, or empty when
missing) is wrong, never adds the issuer to that room, enqueues no
room broadcast beyond the possible "left" notice for the issuer's
previous room (in particular no "joined" broadcast), and appends one
rejection notice to the issuer's outbound queue. -/
theorem C4_join_wrong_password (st : SState) (client : CClient) (nmB : String)
    (rest : List String) (chB : CChannel)
    (hc : getById st client.id = some client)
    (hch : lookupA st.channels nmB = some chB)
    (hpw : chB.password ≠ "")
    (pw : String)
    (hrest : (match rest with | [] => "" | p :: _ => p) = pw)
    (hwrong : pw ≠ chB.password)
    (hq : client.send.length < sendQueueCap) :
    (∀ ch', lookupA (joinChannel st client.id (nmB :: rest)).channels nmB = some ch' →
        client.id ∈ ch'.members → client.id ∈ chB.members) ∧
    (∀ m ∈ (joinChannel st client.id (nmB :: rest)).broadcastQ,
        m ∈ st.broadcastQ ∨ m.content = client.username ++ " has left the channel.") ∧
    (∃ notice, notice ∈ [
        formatMessage2 "Server" "Password is too long. Maximum length is 32 characters.",
        formatMessage2 "Server" ("Channel \x27" ++ nmB ++ "\x27 requires a password."),
        formatMessage2 "Server" ("Incorrect password for channel \x27" ++ nmB ++ "\x27")] ∧
      getById (joinChannel st client.id (nmB :: rest)) client.id =
        some { client with send := client.send ++ [notice] }) := by
  by_cases hlen : 32 < pw.length
  · have hr : joinChannel st client.id (nmB :: rest) = sendToClient st client.id
        (formatMessage2 "Server" "Password is too long. Maximum length is 32 characters.") := by
      simp only [joinChannel, hc, hrest, hlen, if_true]
    rw [hr]
    refine ⟨?_, ?_, ?_⟩
    · rw [sendToClient_channels, hch]
      intro ch' h'
      injection h' with h''
      rw [← h'']
      exact fun hx => hx
    · rw [sendToClient_broadcastQ]
      exact fun m hm => Or.inl hm
    · refine ⟨formatMessage2 "Server" "Password is too long. Maximum length is 32 characters.",
        by simp, ?_⟩
      rw [getById_sendToClient, hc]
      simp [sendMessage, hq]
  · have hst2cl := joinLeaveCurrent_clients st client nmB chB
    have hpw1 := joinLeaveCurrent_pw st client nmB chB hch
    have hnoadd := joinLeaveCurrent_no_add st client nmB chB hch
    have hbq := joinLeaveCurrent_broadcastQ st client nmB chB
    by_cases hempty : pw = ""
    · subst hempty
      have hreq : (joinLeaveCurrent st client nmB chB).2.RequiresPassword = true := by
        simp [CChannel.RequiresPassword, hpw1, hpw]
      have hr : joinChannel st client.id (nmB :: rest) =
          sendToClient (joinLeaveCurrent st client nmB chB).1 client.id
            (formatMessage2 "Server" ("Channel \x27" ++ nmB ++ "\x27 requires a password.")) := by
        simp only [joinChannel, hc, hrest, hch]
        rw [if_neg hlen, if_pos ⟨hreq, trivial⟩]
      rw [hr]
      refine ⟨?_, ?_, ?_⟩
      · rw [sendToClient_channels]
        intro ch' h' hx
        exact hnoadd ch' h' client.id hx
      · rw [sendToClient_broadcastQ]
        intro m hm
        rcases hbq with he | ⟨oldNm, he⟩
        · rw [he] at hm
          exact Or.inl hm
        · rw [he] at hm
          rcases List.mem_append.mp hm with h1 | h2
          · exact Or.inl h1
          · right
            have := List.mem_singleton.mp h2
            rw [this]
      · refine ⟨formatMessage2 "Server" ("Channel \x27" ++ nmB ++ "\x27 requires a password."),
          by simp, ?_⟩
        rw [getById_sendToClient, getById_eq_clients _ st _ hst2cl, hc]
        simp [sendMessage, hq]
    · have hcond : ¬ ((joinLeaveCurrent st client nmB chB).2.RequiresPassword ∧ pw = "") := by
        intro hcon
        exact hempty hcon.2
      have hadd : (joinLeaveCurrent st client nmB chB).2.AddMember client.id pw = .error () := by
        rw [CChannel.AddMember]
        rw [if_pos]
        refine ⟨by rw [hpw1]; exact hpw, by rw [hpw1]; exact fun hh => hwrong hh.symm⟩
      have hr : joinChannel st client.id (nmB :: rest) =
          sendToClient (joinLeaveCurrent st client nmB chB).1 client.id
            (formatMessage2 "Server" ("Incorrect password for channel \x27" ++ nmB ++ "\x27")) := by
        simp only [joinChannel, hc, hrest, hch]
        rw [if_neg hlen, if_neg hcond, hadd]
      rw [hr]
      refine ⟨?_, ?_, ?_⟩
      · rw [sendToClient_channels]
        intro ch' h' hx
        exact hnoadd ch' h' client.id hx
      · rw [sendToClient_broadcastQ]
        intro m hm
        rcases hbq with he | ⟨oldNm, he⟩
        · rw [he] at hm
          exact Or.inl hm
        · rw [he] at hm
          rcases List.mem_append.mp hm with h1 | h2
          · exact Or.inl h1
          · right
            have := List.mem_singleton.mp h2
            rw [this]
      · refine ⟨formatMessage2 "Server" ("Incorrect password for channel \x27" ++ nmB ++ "\x27"),
          by simp, ?_⟩
        rw [getById_sendToClient, getById_eq_clients _ st _ hst2cl, hc]
        simp [sendMessage, hq]

/-- C4 witness: in `stJoin`, `alice` (in room `A`) issues
`/join B x` against room `B` whose password is `pw`: she is not added to
`B`, only a "left" notice is enqueued, and she receives the rejection. -/
theorem C4_join_wrong_password_witness :
    getById stJoin "a" = some cAliceA ∧
    lookupA stJoin.channels "B" = some { name := "B", password := "pw", members := [] } ∧
    ((∀ ch', lookupA (joinChannel stJoin "a" ["B", "x"]).channels "B" = some ch' →
        "a" ∈ ch'.members →
        "a" ∈ ({ name := "B", password := "pw", members := [] } : CChannel).members) ∧
      (∀ m ∈ (joinChannel stJoin "a" ["B", "x"]).broadcastQ,
        m ∈ stJoin.broadcastQ ∨ m.content = "alice" ++ " has left the channel.") ∧
      (∃ notice, notice ∈ [
          formatMessage2 "Server" "Password is too long. Maximum length is 32 characters.",
          formatMessage2 "Server" ("Channel \x27" ++ "B" ++ "\x27 requires a password."),
          formatMessage2 "Server" ("Incorrect password for channel \x27" ++ "B" ++ "\x27")] ∧
        getById (joinChannel stJoin "a" ["B", "x"]) "a" =
          some { cAliceA with send := cAliceA.send ++ [notice] })) := by
  refine ⟨by decide, by decide, ?_⟩
  exact C4_join_wrong_password stJoin cAliceA "B" ["x"]
    { name := "B", password := "pw", members := [] }
    (by decide) (by decide) (by decide) "x" rfl (by decide) (by decide)

/-! ## Claim C10: a rejected join leaves a dangling room reference -/

/-- C10 counterexample: in `stJoin`, `alice` is in room `A` with `bob`;
her `/join B x` is rejected (wrong password for `B`), yet afterwards her
current-room reference still points at `A` while the membership of `A`
is only `["b"]` — the session points at a room it is no longer a member of. -/
theorem C10_counterexample :
    ((getById (joinChannel stJoin "a" ["B", "x"]) "a").map CClient.channel
        = some (some "A")) ∧
    ((lookupA (joinChannel stJoin "a" ["B", "x"]).channels "A").map CChannel.members
        = some ["b"]) ∧
    ¬ ("a" ∈ (["b"] : List String)) := by
  refine ⟨by decide, by decide, by decide⟩

/-- C10 (amended): a `/join` rejected for a missing or incorrect
password (with a password of legal length) by a session that was in a
resolvable room leaves the session's current-room reference pointing at
that previous room while the session has been removed from its
membership: the invariant "non-null room reference implies membership"
is broken by every such rejected join, and holds only on the other
paths. -/
theorem C10_failed_join_dangling (st : SState) (client : CClient)
    (nmA nmB : String) (rest : List String) (chA chB : CChannel) (pw : String)
    (hc : getById st client.id = some client)
    (hcur : client.channel = some nmA)
    (hA : lookupA st.channels nmA = some chA)
    (hch : lookupA st.channels nmB = some chB)
    (hrest : (match rest with | [] => "" | p :: _ => p) = pw)
    (hlen : ¬ 32 < pw.length)
    (hpw : chB.password ≠ "")
    (hwrong : pw ≠ chB.password) :
    ((getById (joinChannel st client.id (nmB :: rest)) client.id).map CClient.channel
        = some (some nmA)) ∧
    (∀ chA', lookupA (joinChannel st client.id (nmB :: rest)).channels nmA = some chA' →
        client.id ∉ chA'.members) := by
  have hst2cl := joinLeaveCurrent_clients st client nmB chB
  have hpw1 := joinLeaveCurrent_pw st client nmB chB hch
  have hprev := joinLeaveCurrent_prev_room st client nmA nmB chA chB hcur hA
  by_cases hempty : pw = ""
  · subst hempty
    have hreq : (joinLeaveCurrent st client nmB chB).2.RequiresPassword = true := by
      simp [CChannel.RequiresPassword, hpw1, hpw]
    have hr : joinChannel st client.id (nmB :: rest) =
        sendToClient (joinLeaveCurrent st client nmB chB).1 client.id
          (formatMessage2 "Server" ("Channel \x27" ++ nmB ++ "\x27 requires a password.")) := by
      simp only [joinChannel, hc, hrest, hch]
      rw [if_neg hlen, if_pos ⟨hreq, trivial⟩]
    rw [hr]
    constructor
    · rw [getById_sendToClient, getById_eq_clients _ st _ hst2cl, hc]
      simp [sendMessage_channel, hcur]
    · rw [sendToClient_channels]
      exact hprev
  · have hcond : ¬ ((joinLeaveCurrent st client nmB chB).2.RequiresPassword ∧ pw = "") := by
      intro hcon
      exact hempty hcon.2
    have hadd : (joinLeaveCurrent st client nmB chB).2.AddMember client.id pw = .error () := by
      rw [CChannel.AddMember]
      rw [if_pos]
      refine ⟨by rw [hpw1]; exact hpw, by rw [hpw1]; exact fun hh => hwrong hh.symm⟩
    have hr : joinChannel st client.id (nmB :: rest) =
        sendToClient (joinLeaveCurrent st client nmB chB).1 client.id
          (formatMessage2 "Server" ("Incorrect password for channel \x27" ++ nmB ++ "\x27")) := by
      simp only [joinChannel, hc, hrest, hch]
      rw [if_neg hlen, if_neg hcond, hadd]
    rw [hr]
    constructor
    · rw [getById_sendToClient, getById_eq_clients _ st _ hst2cl, hc]
      simp [sendMessage_channel, hcur]
    · rw [sendToClient_channels]
      exact hprev

/-- C10 witness: the amended statement applied to the concrete `stJoin`
scenario of the counterexample. -/
theorem C10_failed_join_dangling_witness :
    getById stJoin "a" = some cAliceA ∧
    cAliceA.channel = some "A" ∧
    (((getById (joinChannel stJoin "a" ["B", "x"]) "a").map CClient.channel
        = some (some "A")) ∧
      (∀ chA', lookupA (joinChannel stJoin "a" ["B", "x"]).channels "A" = some chA' →
        "a" ∉ chA'.members)) := by
  refine ⟨by decide, by decide, ?_⟩
  exact C10_failed_join_dangling stJoin cAliceA "A" "B" ["x"]
    { name := "A", password := "", members := ["a", "b"] }
    { name := "B", password := "pw", members := [] } "x"
    (by decide) (by decide) (by decide) (by decide) rfl (by decide) (by decide) (by decide)

/-! ## Claim C5: broadcast audience excludes the sender -/

/-- C5: for a broadcast message, the sender (the registry client whose
identity equals the message senderID) never has its queue touched,
every other registry client receives the formatted frame via
SendMessage when no room is given, and for a room broadcast exactly the
room members other than the sender receive it. -/
theorem C5_broadcast_excludes_sender (st : SState) (msg : Message) (k : String) (c : CClient)
    (hmem : (k, c) ∈ st.clients) :
    (msg.senderID = c.id → (k, c) ∈ (handleBroadcast st msg).clients) ∧
    (msg.senderID ≠ c.id → msg.channel = none →
      (k, sendMessage c (formatMessage (if msg.isServerMsg then "" else msg.senderID)
          (if msg.isServerMsg then "Server" else msg.senderName) msg.content))
        ∈ (handleBroadcast st msg).clients) ∧
    (∀ nm ch, msg.channel = some nm → lookupA st.channels nm = some ch →
      msg.senderID ≠ c.id → c.id ∈ ch.members →
      (k, sendMessage c (formatMessage (if msg.isServerMsg then "" else msg.senderID)
          (if msg.isServerMsg then "Server" else msg.senderName) msg.content))
        ∈ (handleBroadcast st msg).clients) ∧
    (∀ nm ch, msg.channel = some nm → lookupA st.channels nm = some ch →
      c.id ∉ ch.members → (k, c) ∈ (handleBroadcast st msg).clients) := by
  cases hmc : msg.channel with
  | none =>
    have hres : (handleBroadcast st msg).clients = st.clients.map
        (fun p => if msg.senderID ≠ p.2.id then
          (p.1, sendMessage p.2 (formatMessage (if msg.isServerMsg then "" else msg.senderID)
            (if msg.isServerMsg then "Server" else msg.senderName) msg.content)) else p) := by
      simp only [handleBroadcast, hmc]
    refine ⟨?_, ?_, ?_, ?_⟩
    · intro hsid
      rw [hres]
      have hg := List.mem_map_of_mem (fun p => if msg.senderID ≠ p.2.id then
        (p.1, sendMessage p.2 (formatMessage (if msg.isServerMsg then "" else msg.senderID)
          (if msg.isServerMsg then "Server" else msg.senderName) msg.content)) else p) hmem
      simpa [hsid] using hg
    · intro hsid _
      rw [hres]
      have hg := List.mem_map_of_mem (fun p => if msg.senderID ≠ p.2.id then
        (p.1, sendMessage p.2 (formatMessage (if msg.isServerMsg then "" else msg.senderID)
          (if msg.isServerMsg then "Server" else msg.senderName) msg.content)) else p) hmem
      simpa [hsid] using hg
    · intro nm ch hch
      exact Option.noConfusion hch
    · intro nm ch hch
      exact Option.noConfusion hch
  | some nm0 =>
    cases hch0 : lookupA st.channels nm0 with
    | none =>
      have hres : handleBroadcast st msg = st := by
        simp only [handleBroadcast, hmc, hch0]
      refine ⟨?_, ?_, ?_, ?_⟩
      · intro _
        rw [hres]
        exact hmem
      · intro _ hnone
        exact Option.noConfusion hnone
      · intro nm ch hsome hlk
        injection hsome with he
        rw [← he] at hlk
        rw [hch0] at hlk
        exact absurd hlk (by simp)
      · intro nm ch hsome hlk _
        injection hsome with he
        rw [← he] at hlk
        rw [hch0] at hlk
        exact absurd hlk (by simp)
    | some ch0 =>
      have hres : (handleBroadcast st msg).clients = st.clients.map
          (fun p => if p.2.id ∈ ch0.members ∧ msg.senderID ≠ p.2.id then
            (p.1, sendMessage p.2 (formatMessage (if msg.isServerMsg then "" else msg.senderID)
              (if msg.isServerMsg then "Server" else msg.senderName) msg.content)) else p) := by
        simp only [handleBroadcast, hmc, hch0]
      refine ⟨?_, ?_, ?_, ?_⟩
      · intro hsid
        rw [hres]
        have hg := List.mem_map_of_mem (fun p => if p.2.id ∈ ch0.members ∧ msg.senderID ≠ p.2.id then
          (p.1, sendMessage p.2 (formatMessage (if msg.isServerMsg then "" else msg.senderID)
            (if msg.isServerMsg then "Server" else msg.senderName) msg.content)) else p) hmem
        simpa [hsid] using hg
      · intro _ hnone
        exact Option.noConfusion hnone
      · intro nm ch hsome hlk hsid hm
        injection hsome with he
        rw [← he] at hlk
        rw [hch0] at hlk
        injection hlk with he2
        rw [hres]
        have hg := List.mem_map_of_mem (fun p => if p.2.id ∈ ch0.members ∧ msg.senderID ≠ p.2.id then
          (p.1, sendMessage p.2 (formatMessage (if msg.isServerMsg then "" else msg.senderID)
            (if msg.isServerMsg then "Server" else msg.senderName) msg.content)) else p) hmem
        rw [← he2] at hm
        simpa [hm, hsid] using hg
      · intro nm ch hsome hlk hm
        injection hsome with he
        rw [← he] at hlk
        rw [hch0] at hlk
        injection hlk with he2
        rw [hres]
        have hg := List.mem_map_of_mem (fun p => if p.2.id ∈ ch0.members ∧ msg.senderID ≠ p.2.id then
          (p.1, sendMessage p.2 (formatMessage (if msg.isServerMsg then "" else msg.senderID)
            (if msg.isServerMsg then "Server" else msg.senderName) msg.content)) else p) hmem
        rw [← he2] at hm
        simpa [hm] using hg

/-! ## Claim C6: shutdown closes connections once and drains -/

/-- C6: a shutdown event with the stopped flag unset force-closes every
live connection; with the flag set it changes nothing (connections are
closed exactly once); and one loop iteration returns exactly when the
event is the shutdown signal and the client registry is empty. -/
theorem C6_shutdown_drain :
    (∀ st : SState, st.stopped = false → ∀ k c, (k, c) ∈ st.clients →
      (k, { c with connClosed := true }) ∈ (serverStep st Event.shutdownE).1.clients) ∧
    (∀ st : SState, st.stopped = true → (serverStep st Event.shutdownE).1 = st) ∧
    (∀ st : SState, ∀ e : Event, (serverStep st e).2 = true ↔
      e = Event.shutdownE ∧ st.clients = []) := by
  refine ⟨?_, ?_, ?_⟩
  · intro st hs k c hm
    simp only [serverStep, hs, Bool.false_eq_true, if_false]
    exact List.mem_map_of_mem (fun p => (p.1, { p.2 with connClosed := true })) hm
  · intro st hs
    simp [serverStep, hs]
  · intro st e
    cases e with
    | registerE c => simp [serverStep]
    | unregisterE c => simp [serverStep]
    | commandE n a cid => simp [serverStep]
    | broadcastE m => simp [serverStep]
    | shutdownE =>
      cases hs : st.stopped <;>
        simp [serverStep, hs, List.isEmpty_iff, List.map_eq_nil_iff]

/-- C5 witness: `alice` broadcasts `hi` to room `A` in `stJoin`: `bob`
is enqueued the frame `a|alice|hi` and the entry of `alice` is
untouched. -/
theorem C5_broadcast_excludes_sender_witness :
    ("a", cAliceA) ∈ stJoin.clients ∧
    ("b", sendMessage cBobA (formatMessage "a" "alice" "hi")) ∈
      (handleBroadcast stJoin msgHi).clients ∧
    ("a", cAliceA) ∈ (handleBroadcast stJoin msgHi).clients := by
  refine ⟨by decide, ?_, ?_⟩
  · have h := C5_broadcast_excludes_sender stJoin msgHi "b" cBobA (by decide)
    exact h.2.2.1 "A" { name := "A", password := "", members := ["a", "b"] } rfl
      (by decide) (by decide) (by decide)
  · have h := C5_broadcast_excludes_sender stJoin msgHi "a" cAliceA (by decide)
    exact h.1 rfl

/-- C6 witness: shutdown at `stSolo` closes the connection of `alice`,
and
shutdown at the drained registry returns. -/
theorem C6_shutdown_drain_witness :
    stSolo.stopped = false ∧
    ("a", { cAliceA with connClosed := true }) ∈ (serverStep stSolo Event.shutdownE).1.clients ∧
    (serverStep { stSolo with clients := [] } Event.shutdownE).2 = true := by
  refine ⟨rfl, ?_, ?_⟩
  · exact C6_shutdown_drain.1 stSolo rfl "a" cAliceA (by decide)
  · exact (C6_shutdown_drain.2.2 { stSolo with clients := [] } Event.shutdownE).mpr ⟨rfl, rfl⟩

/-! ## Claim C7: leaving an emptied room deletes it -/

/-- C7 (amended): when a session leaves its room and the membership
becomes empty, the room is deleted from the room registry and the
subsequent /channels listing only contains lines of other rooms; the
/leave path clears the session current-room reference, while the
disconnect path removes the session from the registry and leaves the
surviving client object still pointing at the old room (the reference
is not cleared there). -/
theorem C7_empty_room_deleted (st : SState) (client : CClient) (nm : String) (ch : CChannel) :
    (getById st client.id = some client → client.channel = some nm →
      lookupA st.channels nm = some ch →
      (ch.RemoveMember client.id).members.isEmpty = true →
      lookupA (leaveChannel st client.id []).channels nm = none ∧
      (∀ line ∈ channelLines (leaveChannel st client.id []),
        ∃ p, p ∈ (leaveChannel st client.id []).channels ∧ p.1 ≠ nm ∧
          line = p.1 ++ " (" ++ toString p.2.members.length ++ ")") ∧
      (getById (leaveChannel st client.id []) client.id).map CClient.channel
        = some none) ∧
    (client.channel = some nm →
      lookupA st.channels nm = some ch →
      (ch.RemoveMember client.id).members.isEmpty = true →
      lookupA (handleUnregister st client).1.channels nm = none ∧
      (handleUnregister st client).2.channel = some nm) := by
  constructor
  · intro hc hcur hlk hemp
    have hr : leaveChannel st client.id [] =
        sendToClient (updateClientById (deleteChannel
          (broadcastMessageC (updateChannel st nm (ch.RemoveMember client.id)) client (some nm)
            (client.username ++ " has left the channel.") true) nm) client.id
          (fun c => { c with channel := none })) client.id
          (formatMessage2 "Server" ("You have left channel \x27" ++ nm ++ "\x27")) := by
      simp only [leaveChannel, hc, hcur, hlk, hemp, if_true]
    rw [hr]
    refine ⟨?_, ?_, ?_⟩
    · rw [sendToClient_channels, updateClientById_channels]
      exact lookupA_removeA_self _ _
    · intro line hline
      rcases List.mem_map.mp hline with ⟨p, hp, hl⟩
      refine ⟨p, hp, ?_, hl.symm⟩
      have : p ∈ removeA (broadcastMessageC (updateChannel st nm (ch.RemoveMember client.id))
          client (some nm) (client.username ++ " has left the channel.") true).channels nm := hp
      exact ((mem_removeA _ _ _).mp this).2
    · rw [getById_sendToClient]
      rw [getById_updateClientById _ client.id (fun c => { c with channel := none })
        (fun c => rfl)]
      have : getById (deleteChannel (broadcastMessageC (updateChannel st nm
          (ch.RemoveMember client.id)) client (some nm)
          (client.username ++ " has left the channel.") true) nm) client.id
          = getById st client.id := by
        apply getById_eq_clients
        rfl
      rw [this, hc]
      simp [sendMessage_channel]
  · intro hcur hlk hemp
    have hr : (handleUnregister st client) =
        ({ deleteChannel (broadcastMessageC (updateChannel st nm (ch.RemoveMember client.id))
            client (some nm) (client.username ++ " has left the channel.") true) nm with
          clients := removeA (deleteChannel (broadcastMessageC (updateChannel st nm
            (ch.RemoveMember client.id)) client (some nm)
            (client.username ++ " has left the channel.") true) nm).clients client.id }, client) := by
      simp only [handleUnregister, hcur, hlk, hemp, if_true]
    rw [hr]
    refine ⟨?_, ?_⟩
    · exact lookupA_removeA_self _ _
    · exact hcur

end GoTcpChat

namespace GoTcpChat

/-- C7 counterexample: on the disconnect path, `alice` (sole member of
room `A`) is unregistered: room `A` is deleted, but the session object
keeps its current-room reference `some "A"` — it is not cleared as the
claim states. -/
theorem C7_counterexample :
    lookupA (handleUnregister stSolo cAliceA).1.channels "A" = none ∧
    (handleUnregister stSolo cAliceA).2.channel = some "A" ∧
    some "A" ≠ (none : Option String) := by
  refine ⟨by decide, by decide, by decide⟩

/-- C7 witness: `alice` leaves room `A` in `stSolo` (room deleted,
listing clean, reference cleared) and the disconnect path at the same
state (room deleted, reference kept). -/
theorem C7_empty_room_deleted_witness :
    getById stSolo "a" = some cAliceA ∧
    cAliceA.channel = some "A" ∧
    (lookupA (leaveChannel stSolo "a" []).channels "A" = none ∧
      (∀ line ∈ channelLines (leaveChannel stSolo "a" []),
        ∃ p, p ∈ (leaveChannel stSolo "a" []).channels ∧ p.1 ≠ "A" ∧
          line = p.1 ++ " (" ++ toString p.2.members.length ++ ")") ∧
      (getById (leaveChannel stSolo "a" []) "a").map CClient.channel = some none) ∧
    (lookupA (handleUnregister stSolo cAliceA).1.channels "A" = none ∧
      (handleUnregister stSolo cAliceA).2.channel = some "A") := by
  refine ⟨by decide, by decide, ?_, ?_⟩
  · exact (C7_empty_room_deleted stSolo cAliceA "A" { name := "A", password := "", members := ["a"] }).1
      (by decide) (by decide) (by decide) (by decide)
  · exact (C7_empty_room_deleted stSolo cAliceA "A" { name := "A", password := "", members := ["a"] }).2
      (by decide) (by decide) (by decide)

/-! ## Claim C8: whisper resolution and delivery -/

/-- C8: /whisper resolves the target by display name in the client
registry; it replies with a notice to the issuer alone when the target
is unknown, is the issuer itself, or is unregistered; on success the
whole effect is one tagged private message on the target queue and one
confirmation on the issuer queue, with the broadcast queue untouched. -/
theorem C8_whisper_delivery (st : SState) (client : CClient) (target : String)
    (m0 : String) (ms : List String)
    (hc : getById st client.id = some client) :
    (lookupA st.clients target = none →
      whisper st client.id (target :: m0 :: ms) =
        sendToClient st client.id (formatMessage2 "Server"
          ("User \x27" ++ target ++ "\x27 not found or not registered."))) ∧
    (∀ tc, lookupA st.clients target = some tc → client.username = target →
      whisper st client.id (target :: m0 :: ms) =
        sendToClient st client.id
          (formatMessage2 "Server" "You cannot whisper to yourself.")) ∧
    (∀ tc, lookupA st.clients target = some tc → client.username ≠ target →
      tc.registered = false →
      whisper st client.id (target :: m0 :: ms) =
        sendToClient st client.id (formatMessage2 "Server"
          ("User \x27" ++ target ++ "\x27 is not available."))) ∧
    (∀ tc, lookupA st.clients target = some tc → client.username ≠ target →
      tc.registered = true →
      whisper st client.id (target :: m0 :: ms) =
        sendToClient (sendToClient st tc.id
          (formatMessage2 ("DM from " ++ client.username)
            (String.intercalate " " (m0 :: ms)))) client.id
          (formatMessage2 "Server" ("Whisper sent to \x27" ++ target ++ "\x27")) ∧
      (whisper st client.id (target :: m0 :: ms)).broadcastQ = st.broadcastQ) := by
  refine ⟨?_, ?_, ?_, ?_⟩
  · intro hlk
    simp only [whisper, hc, hlk]
  · intro tc hlk hself
    simp only [whisper, hc, hlk, hself]
    rw [if_pos trivial]
  · intro tc hlk hself hreg
    simp only [whisper, hc, hlk, if_neg hself, hreg, Bool.not_false]
    rw [if_pos trivial]
  · intro tc hlk hself hreg
    have hr : whisper st client.id (target :: m0 :: ms) =
        sendToClient (sendToClient st tc.id
          (formatMessage2 ("DM from " ++ client.username)
            (String.intercalate " " (m0 :: ms)))) client.id
          (formatMessage2 "Server" ("Whisper sent to \x27" ++ target ++ "\x27")) := by
      simp only [whisper, hc, hlk, if_neg hself, hreg, Bool.not_true]
      rw [if_neg Bool.false_ne_true]
    exact ⟨hr, by rw [hr, sendToClient_broadcastQ, sendToClient_broadcastQ]⟩

/-- C8 witness: in `stUsers`, `alice` whispers `bob` (message delivered
to `bob` only plus a confirmation, no broadcast) and whispering herself
fails with a notice. -/
theorem C8_whisper_delivery_witness :
    getById stUsers "a" = some cAliceU ∧
    lookupA stUsers.clients "bob" = some cBobU ∧
    cBobU.registered = true ∧
    whisper stUsers "a" ["bob", "secret"] =
      sendToClient (sendToClient stUsers "b" (formatMessage2 "DM from alice" "secret")) "a"
        (formatMessage2 "Server" "Whisper sent to \x27bob\x27") ∧
    (whisper stUsers "a" ["bob", "secret"]).broadcastQ = stUsers.broadcastQ ∧
    whisper stUsers "a" ["alice", "hey"] =
      sendToClient stUsers "a" (formatMessage2 "Server" "You cannot whisper to yourself.") := by
  refine ⟨by decide, by decide, by decide, ?_, ?_, ?_⟩
  · exact ((C8_whisper_delivery stUsers cAliceU "bob" "secret" [] (by decide)).2.2.2 cBobU
      (by decide) (by decide) (by decide)).1
  · exact ((C8_whisper_delivery stUsers cAliceU "bob" "secret" [] (by decide)).2.2.2 cBobU
      (by decide) (by decide) (by decide)).2
  · exact (C8_whisper_delivery stUsers cAliceU "alice" "hey" [] (by decide)).2.1 cAliceU
      (by decide) (by decide)

end GoTcpChat
